import Mathlib

/-
  Shallow embedding of the core logic of the gitlab-to-github-migration
  repository (src/migrate.py, src/check_sync.py, src/dashboard.py),
  together with theorems settling the frozen claims about its
  specification.  Network interaction is modelled by explicit oracles
  (functions from attempt or page number to the server answer), and
  logging / sleeping by returned event lists and durations.
-/

namespace Migration

/-- Whether the first character list starts the second one. -/
def leadsWith : List Char → List Char → Bool
  | [], _ => true
  | _ :: _, [] => false
  | a :: as, b :: bs => a == b && leadsWith as bs

/-- Whether the pattern occurs contiguously inside the character list. -/
def charsOccur (pat : List Char) : List Char → Bool
  | [] => leadsWith pat []
  | c :: rest => leadsWith pat (c :: rest) || charsOccur pat rest

/-- The Python substring test `pat in s`: the pattern occurs contiguously
in the string. -/
def containsSub (s pat : String) : Bool :=
  charsOccur pat.data s.data

/-- Python `str.lower()`, character by character. -/
def lowerStr (s : String) : String :=
  ⟨s.data.map Char.toLower⟩

/-- The test `"secondary rate limit" in error_body.lower()` from
`GitHubAPI._make_request` (src/migrate.py line 331). -/
def secondaryRate (body : String) : Bool :=
  containsSub (lowerStr body) "secondary rate limit"

/-- An HTTP error response as seen through `urllib.error.HTTPError`:
status code, optional `Retry-After` header value (seconds), decoded
error body. -/
structure HttpFailure where
  code : Nat
  retryAfter : Option Nat
  body : String
deriving DecidableEq

/-- The network answer to one HTTP request: a decoded 2xx body, or an
`HTTPError`. -/
inductive HttpResponse (α : Type) where
  | ok (value : α)
  | err (failure : HttpFailure)
deriving DecidableEq

/-- Outcome of `GitHubAPI._make_request` (src/migrate.py): the decoded
body, or the exception
`Exception(f"GitHub API 오류 ({error_code}): {error_body}")`. -/
inductive ReqResult (α : Type) where
  | ok (value : α)
  | apiError (code : Nat) (body : String)
deriving DecidableEq

/-- One retry performed by `GitHubAPI._make_request`: the `retry_count`
at which it happened, the failing status code, and the seconds slept. -/
structure RetryEvent where
  attempt : Nat
  code : Nat
  wait : Nat
deriving DecidableEq

/-- `max_retries = 3` (src/migrate.py line 286). -/
def maxRetries : Nat := 3

/-- `base_delay = 2` seconds (src/migrate.py line 287). -/
def baseDelay : Nat := 2

/-- The wait computed before one retry (src/migrate.py lines 322-332):
the `Retry-After` header if present, else `base_delay * 2 ** retry_count`;
raised to at least 60 when the body mentions a secondary rate limit or
the status code is 403. -/
def retryWait (f : HttpFailure) (retryCount : Nat) : Nat :=
  let w := f.retryAfter.getD (baseDelay * 2 ^ retryCount)
  if secondaryRate f.body || f.code == 403 then max w 60 else w

/-- The retry loop of `GitHubAPI._make_request` (src/migrate.py lines
265-343).  `responses retryCount` is the network answer to the request
issued at that retry count.  Returns the final outcome together with the
list of retries performed. -/
def makeRequestGo (responses : Nat → HttpResponse α) (retryCount : Nat) :
    ReqResult α × List RetryEvent :=
  match responses retryCount with
  | .ok v => (.ok v, [])
  | .err f =>
    if h : (f.code = 429 ∨ f.code = 403) ∧ retryCount < maxRetries then
      let rest := makeRequestGo responses (retryCount + 1)
      (rest.1, ⟨retryCount, f.code, retryWait f retryCount⟩ :: rest.2)
    else
      (.apiError f.code f.body, [])
termination_by maxRetries - retryCount
decreasing_by
  have := h.2
  omega

/-- `GitHubAPI._make_request` entered with `retry_count = 0`. -/
def makeRequest (responses : Nat → HttpResponse α) : ReqResult α × List RetryEvent :=
  makeRequestGo responses 0

/-- Outcome of `GitHubAPI._make_request` of src/dashboard.py: body,
`None` (absence), or a raised exception. -/
inductive DashResult (α : Type) where
  | ok (value : α)
  | absent
  | apiError (code : Nat) (body : String)
deriving DecidableEq

/-- Error dispatch of `GitHubAPI._make_request` in src/dashboard.py
(lines 119-150): a 404 returns `None`; any other `HTTPError` raises. -/
def dashboardMakeRequest (r : HttpResponse α) : DashResult α :=
  match r with
  | .ok v => .ok v
  | .err f => if f.code = 404 then .absent else .apiError f.code f.body

/-- The retry loop of `GitHubCleaner._make_request` in
src/cleanup_github.py (lines 113-175): a 404 returns `None` before the
retry logic is consulted; a 429 or 403 below the retry budget waits
(same Retry-After / backoff / 60s-floor rule as the migration client)
and retries; any other `HTTPError` raises `Exception(f"HTTP {e.code}: {error_body}")`. -/
def cleanupMakeRequestGo (responses : Nat → HttpResponse α) (retryCount : Nat) :
    DashResult α × List RetryEvent :=
  match responses retryCount with
  | .ok v => (.ok v, [])
  | .err f =>
    if f.code = 404 then
      (.absent, [])
    else if h : (f.code = 429 ∨ f.code = 403) ∧ retryCount < maxRetries then
      let rest := cleanupMakeRequestGo responses (retryCount + 1)
      (rest.1, ⟨retryCount, f.code, retryWait f retryCount⟩ :: rest.2)
    else
      (.apiError f.code f.body, [])
termination_by maxRetries - retryCount
decreasing_by
  have := h.2
  omega

/-- `GitLabToGitHubMigrator._create_github_repo` (src/migrate.py lines
836-868): `create` is the attempted repository creation, `getExisting`
the fallback `get_repo` call.  A creation failure falls back exactly
when the exception text contains the substring `"422"`. -/
def createGithubRepo (create : Except String α) (getExisting : Except String α) :
    Except String α :=
  match create with
  | .ok r => .ok r
  | .error e => if containsSub e "422" then getExisting else .error e

/-- `GitHubAPI.rate_limit_info` (src/migrate.py lines 258-262), the
process-wide quota state parsed from response headers. -/
structure RateLimitInfo where
  limit : Option Int
  remaining : Option Int
  reset : Option Int
deriving DecidableEq

/-- Python truthiness of the optional integer `reset_time` used by
`if reset_time:` (src/migrate.py line 388). -/
def truthyInt : Option Int → Bool
  | some r => r != 0
  | none => false

/-- A log line emitted by `GitHubAPI._adaptive_delay`:
`warnCritical` is the `MigrationLogger.warning("⚠ Rate Limit 거의 소진! ...")`
line (with `resetNamed` recording whether the reset time appears in it),
`warnLow` the `MigrationLogger.warning("Rate Limit 주의: ...")` line, and
`statusNote` the `MigrationLogger.info("Rate Limit: ...")` line. -/
inductive LogEvent where
  | warnCritical (remaining limit : Int) (resetNamed : Bool)
  | warnLow (remaining limit : Int)
  | statusNote (remaining limit : Int)
deriving DecidableEq

/-- `GitHubAPI._adaptive_delay` (src/migrate.py lines 367-414): the log
events emitted and the seconds slept. -/
def adaptiveDelay (info : RateLimitInfo) : List LogEvent × ℚ :=
  match info.remaining, info.limit with
  | some remaining, some limit =>
    if remaining < 10 then
      ([.warnCritical remaining limit (truthyInt info.reset)], 5)
    else if remaining < 100 then
      ([.warnLow remaining limit], 2)
    else if remaining < 500 then
      (if remaining % 100 == 0 then [.statusNote remaining limit] else [], 1)
    else
      ([], 1/2)
  | _, _ => ([], 1/2)

/-- `per_page = 100` (src/migrate.py lines 113, 469, 500). -/
def perPage : Nat := 100

/-- The page-numbered pagination loop shared by
`GitLabAPI._make_request_list` (src/migrate.py lines 109-155) and
`GitHubAPI.get_branches` / `get_tags` (lines 456-516).  `pages n` is the
server answer for page `n`; returns the accumulated items and the page
numbers requested.  `fuel` bounds the loop (the source `while True`
spins forever against a server that returns full pages forever). -/
def fetchPagesGo (pages : Nat → List α) (page : Nat) : Nat → List α × List Nat
  | 0 => ([], [])
  | fuel + 1 =>
    let results := pages page
    if results.isEmpty then
      ([], [page])
    else if results.length < perPage then
      (results, [page])
    else
      let rest := fetchPagesGo pages (page + 1) fuel
      (results ++ rest.1, page :: rest.2)

/-- The pagination loop entered at `page = 1`. -/
def makeRequestList (pages : Nat → List α) (fuel : Nat) : List α × List Nat :=
  fetchPagesGo pages 1 fuel

/-- A GitLab branch as used by `_compare_branches`: `commitId` is
`gitlab_branch["commit"]["id"]`. -/
structure GLBranch where
  name : String
  commitId : String
deriving DecidableEq

/-- A GitHub branch as used by `_compare_branches`: `commitSha` is
`github_branch["commit"]["sha"]`. -/
structure GHBranch where
  name : String
  commitSha : String
deriving DecidableEq

/-- The nested commit object of a GitLab tag payload. -/
structure GLCommit where
  id : String
deriving DecidableEq

/-- A GitLab tag payload as used by `_compare_tags`: `commit` is the
nested commit object when the `"commit"` key is present, `target` the
flat `"target"` field when present. -/
structure GLTag where
  name : String
  commit : Option GLCommit
  target : Option String
deriving DecidableEq

/-- A GitHub tag as used by `_compare_tags`. -/
structure GHTag where
  name : String
  commitSha : String
deriving DecidableEq

/-- The four classifications produced by `_compare_branches` and
`_compare_tags` in src/check_sync.py. -/
inductive SyncStatus where
  | synced
  | different
  | missingInGitHub
  | extraInGitHub
deriving DecidableEq

/-- The exact status strings written by `_compare_branches` and
`_compare_tags` (src/check_sync.py lines 180, 184, 224, 229, 278, 280,
287, 293). -/
def statusText : SyncStatus → String
  | .synced => "✓ Synced"
  | .different => "⚠ Different"
  | .missingInGitHub => "✗ Missing in GitHub"
  | .extraInGitHub => "✗ Extra in GitHub"

/-- One summarized commit of a behind-details annotation
(src/check_sync.py lines 212-217). -/
structure BehindCommit where
  sha : String
  message : String
  author : String
  date : String
deriving DecidableEq

/-- The `behind_details` annotation: either the comparison data
(src/check_sync.py lines 203-207) or the `{"error": str(e)}` record
(line 220). -/
inductive BehindDetails where
  | found (behindBy aheadBy : Nat) (commits : List BehindCommit)
  | failed (msg : String)
deriving DecidableEq

/-- One entry of `result["details"]` in `_compare_branches`
(src/check_sync.py lines 166-172). -/
structure BranchInfo where
  name : String
  status : SyncStatus
  gitlabCommit : String
  githubCommit : String
  behindDetails : Option BehindDetails
deriving DecidableEq

/-- One entry of `result["details"]` in `_compare_tags`
(src/check_sync.py lines 265-270). -/
structure TagInfo where
  name : String
  status : SyncStatus
  gitlabCommit : String
  githubCommit : String
deriving DecidableEq

/-- A commit of the compare-endpoint payload: `sha` is `commit["sha"]`,
`message` is `commit["commit"]["message"]`, `authorName` is
`commit["commit"]["author"]["name"]`, `authorDate` is
`commit["commit"]["author"]["date"]`. -/
structure RawCommit where
  sha : String
  message : String
  authorName : String
  authorDate : String
deriving DecidableEq

/-- The compare-endpoint payload as read by `_compare_branches`:
`behindBy` and `aheadBy` model `compare.get("behind_by", 0)` and
`compare.get("ahead_by", 0)`, `commits` models
`compare.get("commits", [])` (a missing key is the empty list). -/
structure CompareResponse where
  behindBy : Option Nat
  aheadBy : Option Nat
  commits : List RawCommit
deriving DecidableEq

/-- The Python dict built by `{b["name"]: b for b in xs}` followed by
`.get(n)`: on duplicate names the last occurrence wins. -/
def pyDict (key : α → String) (xs : List α) (n : String) : Option α :=
  xs.reverse.find? fun x => key x == n

/-- `sorted(set(keys1) | set(keys2))` (src/check_sync.py lines 160-162,
259-261). -/
def sortedUnion (xs ys : List String) : List String :=
  List.insertionSort (· ≤ ·) (xs ++ ys).dedup

/-- The commit summary appended for each of the first ten behind commits
(src/check_sync.py lines 212-217). -/
def summarizeCommit (c : RawCommit) : BehindCommit :=
  ⟨c.sha.take 8, ((c.message.splitOn "\n").headD "").take 60, c.authorName, c.authorDate⟩

/-- The body of the per-name loop of `SyncChecker._compare_branches`
(src/check_sync.py lines 162-233).  `glD` and `ghD` are the two name
dicts, `cmp base head` the destination compare endpoint.  Returns the
branch info together with the compare calls issued, as (base, head)
pairs. -/
def branchInfoFor (glD : String → Option GLBranch) (ghD : String → Option GHBranch)
    (cmp : String → String → Except String CompareResponse) (showBehindDetails : Bool)
    (n : String) : BranchInfo × List (String × String) :=
  match glD n, ghD n with
  | some g, some b =>
    let gitlabSha := g.commitId
    let githubSha := b.commitSha
    if gitlabSha == githubSha then
      (⟨n, .synced, gitlabSha.take 8, githubSha.take 8, none⟩, [])
    else if showBehindDetails then
      match cmp githubSha gitlabSha with
      | .ok c =>
        let behindBy := c.behindBy.getD 0
        let aheadBy := c.aheadBy.getD 0
        if behindBy > 0 then
          (⟨n, .different, gitlabSha.take 8, githubSha.take 8,
            some (.found behindBy aheadBy ((c.commits.take 10).map summarizeCommit))⟩,
           [(githubSha, gitlabSha)])
        else
          (⟨n, .different, gitlabSha.take 8, githubSha.take 8, none⟩,
           [(githubSha, gitlabSha)])
      | .error e =>
        (⟨n, .different, gitlabSha.take 8, githubSha.take 8, some (.failed e)⟩,
         [(githubSha, gitlabSha)])
    else
      (⟨n, .different, gitlabSha.take 8, githubSha.take 8, none⟩, [])
  | some g, none => (⟨n, .missingInGitHub, g.commitId.take 8, "-", none⟩, [])
  | none, some b => (⟨n, .extraInGitHub, "-", b.commitSha.take 8, none⟩, [])
  | none, none => (⟨n, .extraInGitHub, "-", "", none⟩, [])

/-- The value returned by `_compare_branches`, plus the compare calls it
issued. -/
structure BranchCompareResult where
  gitlabCount : Nat
  githubCount : Nat
  details : List BranchInfo
  compareCalls : List (String × String)
deriving DecidableEq

/-- `SyncChecker._compare_branches` (src/check_sync.py lines 128-235). -/
def compareBranches (gl : List GLBranch) (gh : List GHBranch)
    (cmp : String → String → Except String CompareResponse)
    (showBehindDetails : Bool) : BranchCompareResult :=
  let glD := pyDict GLBranch.name gl
  let ghD := pyDict GHBranch.name gh
  let names := sortedUnion (gl.map GLBranch.name) (gh.map GHBranch.name)
  let pairs := names.map (branchInfoFor glD ghD cmp showBehindDetails)
  ⟨gl.length, gh.length, pairs.map Prod.fst, (pairs.map Prod.snd).flatten⟩

/-- `gitlab_tag["commit"]["id"] if "commit" in gitlab_tag else
gitlab_tag.get("target", "")` (src/check_sync.py lines 274, 288). -/
def glTagSha (t : GLTag) : String :=
  match t.commit with
  | some c => c.id
  | none => t.target.getD ""

/-- `gitlab_sha[:8] if gitlab_sha else "-"` (src/check_sync.py lines
282, 289). -/
def renderSha (sha : String) : String :=
  if sha == "" then "-" else sha.take 8

/-- The body of the per-name loop of `SyncChecker._compare_tags`
(src/check_sync.py lines 261-297). -/
def tagInfoFor (glD : String → Option GLTag) (ghD : String → Option GHTag)
    (n : String) : TagInfo :=
  match glD n, ghD n with
  | some g, some b =>
    let gitlabSha := glTagSha g
    let githubSha := b.commitSha
    ⟨n, if gitlabSha == githubSha then .synced else .different,
     renderSha gitlabSha, githubSha.take 8⟩
  | some g, none => ⟨n, .missingInGitHub, renderSha (glTagSha g), "-"⟩
  | none, some b => ⟨n, .extraInGitHub, "-", b.commitSha.take 8⟩
  | none, none => ⟨n, .extraInGitHub, "-", ""⟩

/-- The value returned by `_compare_tags`. -/
structure TagCompareResult where
  gitlabCount : Nat
  githubCount : Nat
  details : List TagInfo
deriving DecidableEq

/-- `SyncChecker._compare_tags` (src/check_sync.py lines 237-299). -/
def compareTags (gl : List GLTag) (gh : List GHTag) : TagCompareResult :=
  ⟨gl.length, gh.length,
   (sortedUnion (gl.map GLTag.name) (gh.map GHTag.name)).map
     (tagInfoFor (pyDict GLTag.name gl) (pyDict GHTag.name gh))⟩

/-- The value returned by `_generate_summary` (src/check_sync.py lines
333-347). -/
structure Summary where
  isFullySynced : Bool
  syncedBranches : Nat
  differentBranches : Nat
  missingBranches : Nat
  extraBranches : Nat
  syncedTags : Nat
  differentTags : Nat
  missingTags : Nat
  extraTags : Nat
deriving DecidableEq

/-- `SyncChecker._generate_summary` (src/check_sync.py lines 301-347):
counts use the source string predicates on the status text
(`== "✓ Synced"`, `"⚠" in status`, `"Missing" in status`,
`"Extra" in status`). -/
def generateSummary (branches : List BranchInfo) (tags : List TagInfo) : Summary :=
  let syncedB := branches.countP fun b => statusText b.status == "✓ Synced"
  let diffB := branches.countP fun b => containsSub (statusText b.status) "⚠"
  let missB := branches.countP fun b => containsSub (statusText b.status) "Missing"
  let extraB := branches.countP fun b => containsSub (statusText b.status) "Extra"
  let syncedT := tags.countP fun t => statusText t.status == "✓ Synced"
  let diffT := tags.countP fun t => containsSub (statusText t.status) "⚠"
  let missT := tags.countP fun t => containsSub (statusText t.status) "Missing"
  let extraT := tags.countP fun t => containsSub (statusText t.status) "Extra"
  ⟨diffB == 0 && missB == 0 && extraB == 0 && diffT == 0 && missT == 0 && extraT == 0,
   syncedB, diffB, missB, extraB, syncedT, diffT, missT, extraT⟩

/-- The full record for a ref name in a branch details list. -/
def infoOf (ds : List BranchInfo) (n : String) : Option BranchInfo :=
  ds.find? fun i => i.name == n

/-- The status recorded for a ref name in a branch details list. -/
def statusOf (ds : List BranchInfo) (n : String) : Option SyncStatus :=
  (infoOf ds n).map BranchInfo.status

/-- A network that always answers 403 Forbidden with no secondary-rate-limit
mention and no `Retry-After` header. -/
def plain403 : Nat → HttpResponse Unit :=
  fun _ => .err ⟨403, none, "Forbidden"⟩

/-- A network that always answers 429 with `Retry-After: 3`. -/
def always429 : Nat → HttpResponse Unit :=
  fun _ => .err ⟨429, some 3, "API rate limit exceeded"⟩

/-- A network that always answers 404. -/
def plain404 : Nat → HttpResponse (Option Unit) :=
  fun _ => .err ⟨404, none, "Not Found"⟩

/-- A server with pages of 100, 100 and 37 items (and, adversarially,
full pages again from page 4 on, so that a 4th request would be
visible in the requested-page list). -/
def threePages : Nat → List Nat :=
  fun p => if p = 3 then List.range 37 else List.range 100

/-- A compare endpoint that always fails. -/
def noCompare : String → String → Except String CompareResponse :=
  fun _ _ => .error "compare unavailable"

/-- A compare endpoint reporting the destination 0 behind and 2 ahead. -/
def cmpZeroBehind : String → String → Except String CompareResponse :=
  fun _ _ => .ok ⟨some 0, some 2, []⟩

/-- Claim C1 as stated: the client retries only on 429 or on a 403 whose
body mentions a secondary rate limit (so a plain 403 is never retried),
and at most 3 attempts in total are made. -/
def claimC1Stated : Prop :=
  ∀ responses : Nat → HttpResponse Unit,
    (∀ f, responses 0 = .err f → f.code = 403 → secondaryRate f.body = false →
      (makeRequest responses).2 = []) ∧
    (makeRequest responses).2.length + 1 ≤ 3

/-- The `remaining < 10` sentence of claim C2 as stated: the emitted warning
always names the reset time (and the sleep is 5s). -/
def claimC2Stated : Prop :=
  ∀ (info : RateLimitInfo) (r l : Int), info.remaining = some r → info.limit = some l →
    r < 10 → adaptiveDelay info = ([.warnCritical r l true], 5)

/-- Claim C7 as stated for the migration client: a 404 on a
single-resource GET returns an explicit absent sentinel (`None`, i.e.
`.ok none`) to the caller rather than failing. -/
def claimC7Stated : Prop :=
  ∀ (responses : Nat → HttpResponse (Option Unit)) (f : HttpFailure),
    responses 0 = .err f → f.code = 404 → (makeRequest responses).1 = .ok none

/-- Claim C8 as stated: any already-exists conflict of the 409/422 class
(the status code appears in the exception text) makes creation fall back
to fetching the existing repository. -/
def claimC8Stated : Prop :=
  ∀ (e : String) (fb : Except String Nat),
    (containsSub e "409" = true ∨ containsSub e "422" = true) →
    createGithubRepo (.error e) fb = fb

/-- Claim C9 as stated: a tag whose commit id is missing resolves to the
sentinel string `"unknown"`. -/
def claimC9Stated : Prop :=
  ∀ t : GLTag, t.commit = none → t.target = none → glTagSha t = "unknown"

section Helpers

/-- `pyDict` misses a name exactly when no entry carries it. -/
theorem pyDict_eq_none_iff (key : α → String) (xs : List α) (n : String) :
    pyDict key xs n = none ↔ n ∉ xs.map key := by
  simp only [pyDict, List.find?_eq_none, List.mem_reverse, List.mem_map, beq_iff_eq]
  constructor
  · rintro h ⟨x, hx, hk⟩
    exact h x hx hk
  · intro h x hx hk
    exact h ⟨x, hx, hk⟩

/-- With unique names, `pyDict` returns exactly the entry carrying the
name. -/
theorem pyDict_eq_some_iff (key : α → String) (xs : List α)
    (hnd : (xs.map key).Nodup) (n : String) (x : α) :
    pyDict key xs n = some x ↔ x ∈ xs ∧ key x = n := by
  constructor
  · intro h
    have hp := List.find?_some h
    have hm := List.mem_of_find?_eq_some h
    rw [List.mem_reverse] at hm
    exact ⟨hm, by simpa using hp⟩
  · rintro ⟨hm, hk⟩
    have hex : ∃ y ∈ xs.reverse, (key y == n) = true :=
      ⟨x, List.mem_reverse.2 hm, by simp [hk]⟩
    obtain ⟨y, hy⟩ := Option.isSome_iff_exists.1 (List.find?_isSome.2 hex)
    have hky : key y = n := by simpa using List.find?_some hy
    have hmy : y ∈ xs := List.mem_reverse.1 (List.mem_of_find?_eq_some hy)
    have hxy : x = y := List.inj_on_of_nodup_map hnd hm hmy (hk.trans hky.symm)
    show xs.reverse.find? (fun z => key z == n) = some x
    rw [hy, hxy]

/-- With unique names, `pyDict` is insensitive to the order of the
entry list. -/
theorem pyDict_perm (key : α → String) {xs ys : List α}
    (hnd : (xs.map key).Nodup) (hp : xs.Perm ys) :
    pyDict key xs = pyDict key ys := by
  have hnd' : (ys.map key).Nodup := ((hp.map key).nodup_iff).1 hnd
  funext n
  cases h : pyDict key xs n with
  | none =>
    rw [pyDict_eq_none_iff] at h
    have : n ∉ ys.map key := fun hm => h (((hp.map key).mem_iff).2 hm)
    exact ((pyDict_eq_none_iff key ys n).2 this).symm
  | some x =>
    rw [pyDict_eq_some_iff key xs hnd] at h
    exact ((pyDict_eq_some_iff key ys hnd' n x).2 ⟨(hp.mem_iff).1 h.1, h.2⟩).symm

theorem sortedUnion_perm_dedup (xs ys : List String) :
    (sortedUnion xs ys).Perm (xs ++ ys).dedup :=
  List.perm_insertionSort _ _

theorem mem_sortedUnion {xs ys : List String} {n : String} :
    n ∈ sortedUnion xs ys ↔ n ∈ xs ∨ n ∈ ys := by
  rw [(sortedUnion_perm_dedup xs ys).mem_iff, List.mem_dedup, List.mem_append]

theorem sortedUnion_nodup (xs ys : List String) : (sortedUnion xs ys).Nodup :=
  ((sortedUnion_perm_dedup xs ys).nodup_iff).2 (List.nodup_dedup _)

theorem sortedUnion_sorted (xs ys : List String) :
    (sortedUnion xs ys).Sorted (· ≤ ·) :=
  List.sorted_insertionSort _ _

theorem sortedUnion_sorted_lt (xs ys : List String) :
    (sortedUnion xs ys).Sorted (· < ·) :=
  (sortedUnion_sorted xs ys).lt_of_le (sortedUnion_nodup xs ys)

/-- The sorted union of names is insensitive to the order in which each
side lists its names. -/
theorem sortedUnion_congr {xs xs' ys ys' : List String}
    (h1 : xs.Perm xs') (h2 : ys.Perm ys') :
    sortedUnion xs ys = sortedUnion xs' ys' :=
  List.eq_of_perm_of_sorted
    ((sortedUnion_perm_dedup xs ys).trans
      (((h1.append h2).dedup).trans (sortedUnion_perm_dedup xs' ys').symm))
    (sortedUnion_sorted xs ys) (sortedUnion_sorted xs' ys')

/-- Finding by name inside a list built by mapping a name-preserving
constructor over a name list locates the value of the constructor. -/
theorem find?_map_of_name {β : Type} (mk : String → β) (nameOf : β → String)
    (hmk : ∀ m, nameOf (mk m) = m) :
    ∀ (names : List String) (n : String), n ∈ names →
      (names.map mk).find? (fun i => nameOf i == n) = some (mk n)
  | [], n, h => absurd h (List.not_mem_nil n)
  | m :: rest, n, h => by
    by_cases hmn : m = n
    · subst hmn
      exact List.find?_cons_of_pos _ (by simp [hmk])
    · have hn : n ∈ rest := by
        rcases List.mem_cons.1 h with h1 | h1
        · exact absurd h1.symm hmn
        · exact h1
      rw [List.map_cons, List.find?_cons_of_neg _ (by simp [hmk, hmn]),
        find?_map_of_name mk nameOf hmk rest n hn]

end Helpers

section RetryLoop

/-- One unfolding of the retry loop. -/
theorem makeRequestGo_unfold (responses : Nat → HttpResponse α) (c : Nat) :
    makeRequestGo responses c =
      match responses c with
      | .ok v => (.ok v, [])
      | .err f =>
        if (f.code = 429 ∨ f.code = 403) ∧ c < maxRetries then
          ((makeRequestGo responses (c + 1)).1,
            ⟨c, f.code, retryWait f c⟩ :: (makeRequestGo responses (c + 1)).2)
        else
          (.apiError f.code f.body, []) := by
  rw [makeRequestGo.eq_def]
  cases responses c with
  | ok v => rfl
  | err f =>
    by_cases hc : (f.code = 429 ∨ f.code = 403) ∧ c < maxRetries
    · simp [hc]
    · simp [hc]

/-- Behaviour of the `_make_request` retry loop from any retry count, by
induction on the remaining retry budget: at most `maxRetries - c` more
retries happen, they happen at consecutive retry counts, each is caused
by a 429 or 403 answer and waits the documented time, and if every
answer up to `maxRetries` is a retryable failure the loop ends in the
generic API error for the final answer. -/
theorem makeRequestGo_spec (responses : Nat → HttpResponse α) :
    ∀ (d c : Nat), maxRetries - c ≤ d →
      ((makeRequestGo responses c).2.length ≤ maxRetries - c) ∧
      ((makeRequestGo responses c).2.map RetryEvent.attempt =
        List.range' c (makeRequestGo responses c).2.length) ∧
      (∀ e ∈ (makeRequestGo responses c).2, ∃ f, responses e.attempt = .err f ∧
        (f.code = 429 ∨ f.code = 403) ∧
        e.wait = (if secondaryRate f.body || f.code == 403 then
            max (f.retryAfter.getD (baseDelay * 2 ^ e.attempt)) 60
          else f.retryAfter.getD (baseDelay * 2 ^ e.attempt))) ∧
      (c ≤ maxRetries →
        (∀ i, c ≤ i → i ≤ maxRetries →
          ∃ f, responses i = .err f ∧ (f.code = 429 ∨ f.code = 403)) →
        ∃ f, responses maxRetries = .err f ∧
          (makeRequestGo responses c).1 = .apiError f.code f.body ∧
          (makeRequestGo responses c).2.length = maxRetries - c) := by
  intro d
  induction d with
  | zero =>
    intro c hc
    have hcge : maxRetries ≤ c := by omega
    rw [makeRequestGo_unfold]
    cases hres : responses c with
    | ok v =>
      dsimp only
      refine ⟨by simp, by simp, by simp, ?_⟩
      intro hle hall
      obtain ⟨f, hf, -⟩ := hall c le_rfl hle
      rw [hres] at hf
      simp at hf
    | err f =>
      dsimp only
      have hnc : ¬ ((f.code = 429 ∨ f.code = 403) ∧ c < maxRetries) := by
        rintro ⟨-, hlt⟩
        omega
      rw [if_neg hnc]
      refine ⟨by simp, by simp, by simp, ?_⟩
      intro hle hall
      have hceq : c = maxRetries := le_antisymm hle hcge
      refine ⟨f, ?_, rfl, by simp; omega⟩
      rw [← hceq]
      exact hres
  | succ d ih =>
    intro c hc
    rw [makeRequestGo_unfold]
    cases hres : responses c with
    | ok v =>
      dsimp only
      refine ⟨by simp, by simp, by simp, ?_⟩
      intro hle hall
      obtain ⟨f, hf, -⟩ := hall c le_rfl hle
      rw [hres] at hf
      simp at hf
    | err f =>
      dsimp only
      by_cases hcnd : (f.code = 429 ∨ f.code = 403) ∧ c < maxRetries
      · rw [if_pos hcnd]
        obtain ⟨ih1, ih2, ih3, ih4⟩ := ih (c + 1) (by omega)
        refine ⟨?_, ?_, ?_, ?_⟩
        · simp only [List.length_cons]
          have := hcnd.2
          omega
        · simp only [List.map_cons, List.length_cons, List.range'_succ]
          rw [ih2]
        · intro e he
          rcases List.mem_cons.1 he with rfl | he'
          · exact ⟨f, hres, hcnd.1, by simp [retryWait]⟩
          · exact ih3 e he'
        · intro hle hall
          obtain ⟨f3, h3a, h3b, h3c⟩ := ih4 (by omega) (fun i h1 h2 => hall i (by omega) h2)
          refine ⟨f3, h3a, h3b, ?_⟩
          simp only [List.length_cons, h3c]
          have := hcnd.2
          omega
      · rw [if_neg hcnd]
        refine ⟨by simp, by simp, by simp, ?_⟩
        intro hle hall
        obtain ⟨fc, hfc, hcode⟩ := hall c le_rfl hle
        rw [hres] at hfc
        injection hfc with hff
        subst hff
        have hceq : c = maxRetries := by
          rcases Nat.lt_or_ge c maxRetries with hlt | hge
          · exact absurd ⟨hcode, hlt⟩ hcnd
          · omega
        refine ⟨f, ?_, rfl, by simp; omega⟩
        rw [← hceq]
        exact hres

end RetryLoop

section ClaimC1

/-- C1 counterexample: on a server that always answers 403 with body
"Forbidden" (no secondary-rate-limit mention), the client does retry —
three times, so four attempts in total — refuting both the claimed
retry condition (retry exactly on 429 or secondary-rate-limit 403) and
the claimed bound of 3 attempts in total. -/
theorem claimC1_false : ¬ claimC1Stated := by
  intro h
  have h1 := (h plain403).1 ⟨403, none, "Forbidden"⟩ rfl rfl (by decide)
  have h2 : (makeRequest plain403).2.length = 3 := by
    simp +decide [makeRequest, makeRequestGo, plain403, maxRetries]
  rw [h1] at h2
  simp at h2

/-- C1 (amended): for every request through the migration GitHub client,
the client retries when the response is HTTP 429 or any HTTP 403
(regardless of body); retries happen at consecutive retry counts
starting from 0; each retry waits the server Retry-After seconds when
present and otherwise 2s * 2^attempt, raised to at least 60s whenever
the body mentions "secondary rate limit" (case-insensitively) or the
status is 403; at most 3 retries are made after the initial request
(4 attempts in total), and on exhaustion the call fails with the
generic API error carrying the final status code and body. -/
theorem makeRequest_retry_policy (responses : Nat → HttpResponse α) :
    ((makeRequest responses).2.length ≤ 3) ∧
    ((makeRequest responses).2.map RetryEvent.attempt =
      List.range' 0 (makeRequest responses).2.length) ∧
    (∀ e ∈ (makeRequest responses).2, ∃ f, responses e.attempt = .err f ∧
      (f.code = 429 ∨ f.code = 403) ∧
      e.wait = (if secondaryRate f.body || f.code == 403 then
          max (f.retryAfter.getD (2 * 2 ^ e.attempt)) 60
        else f.retryAfter.getD (2 * 2 ^ e.attempt))) ∧
    ((∀ i, i ≤ 3 → ∃ f, responses i = .err f ∧ (f.code = 429 ∨ f.code = 403)) →
      ∃ f, responses 3 = .err f ∧
        (makeRequest responses).1 = .apiError f.code f.body ∧
        (makeRequest responses).2.length = 3) := by
  have h := makeRequestGo_spec responses maxRetries 0 (by omega)
  simp only [maxRetries, baseDelay, Nat.sub_zero] at h
  exact ⟨h.1, h.2.1, h.2.2.1,
    fun hall => h.2.2.2 (by omega) fun i h1 h2 => hall i h2⟩

/-- C1 witness: against a server that always answers 429 with
`Retry-After: 3`, the client retries three times and then fails with
the generic API error for the final 429. -/
theorem makeRequest_retry_policy_witness :
    (makeRequest always429).1 = ReqResult.apiError 429 "API rate limit exceeded" ∧
    (makeRequest always429).2.length = 3 := by
  obtain ⟨f, hf, hres, hlen⟩ :=
    (makeRequest_retry_policy always429).2.2.2
      (fun i _ => ⟨⟨429, some 3, "API rate limit exceeded"⟩, rfl, Or.inl rfl⟩)
  have h0 : always429 3 = .err ⟨429, some 3, "API rate limit exceeded"⟩ := rfl
  rw [h0] at hf
  injection hf with hfe
  rw [← hfe] at hres
  exact ⟨hres, hlen⟩

end ClaimC1

section ClaimC7

/-- C7 counterexample: the migration client answers a 404 on a
single-resource GET with the raised API error, not with an absent
sentinel. -/
theorem claimC7_false : ¬ claimC7Stated := by
  intro h
  have h1 := h plain404 ⟨404, none, "Not Found"⟩ rfl rfl
  have h2 : (makeRequest plain404).1 = .apiError 404 "Not Found" := by
    simp +decide [makeRequest, makeRequestGo, plain404, maxRetries]
  rw [h1] at h2
  simp at h2

/-- C7 (amended): in the migration client (src/migrate.py) a 404 on a
single-resource GET fails with the typed API error carrying status and
body, like every other non-retried non-2xx; the absent (None) sentinel
on 404 is a behaviour of the other two GitHub clients: the dashboard
client (src/dashboard.py) returns it on 404 and fails typed on every
other non-2xx, and the cleanup client (src/cleanup_github.py) returns
it on 404 before its retry logic is even consulted. -/
theorem notFound_dispatch (α : Type) (f : HttpFailure) (responses : Nat → HttpResponse α)
    (hres : responses 0 = .err f) (h404 : f.code = 404) :
    (makeRequest responses).1 = .apiError 404 f.body ∧
    @dashboardMakeRequest α (.err f) = .absent ∧
    (cleanupMakeRequestGo responses 0).1 = .absent ∧
    (cleanupMakeRequestGo responses 0).2 = [] ∧
    (∀ g : HttpFailure, g.code ≠ 404 →
      @dashboardMakeRequest α (.err g) = .apiError g.code g.body) := by
  have hclean : cleanupMakeRequestGo responses 0 = (.absent, []) := by
    rw [cleanupMakeRequestGo.eq_def, hres]
    dsimp only
    rw [if_pos h404]
  refine ⟨?_, by simp [dashboardMakeRequest, h404], by rw [hclean], by rw [hclean],
    fun g hg => by simp [dashboardMakeRequest, hg]⟩
  show (makeRequestGo responses 0).1 = _
  rw [makeRequestGo_unfold, hres]
  dsimp only
  have hnc : ¬ ((f.code = 429 ∨ f.code = 403) ∧ 0 < maxRetries) := by
    rintro ⟨hc | hc, -⟩ <;> rw [h404] at hc <;> exact absurd hc (by decide)
  rw [if_neg hnc, h404]

/-- C7 witness: a concrete 404 answer fails in the migration client and
returns the absent sentinel in the dashboard and cleanup clients (the
latter without any retry). -/
theorem notFound_dispatch_witness :
    (makeRequest plain404).1 = ReqResult.apiError 404 "Not Found" ∧
    @dashboardMakeRequest (Option Unit) (.err ⟨404, none, "Not Found"⟩) = .absent ∧
    (cleanupMakeRequestGo plain404 0).1 = .absent ∧
    (cleanupMakeRequestGo plain404 0).2 = [] := by
  obtain ⟨h1, h2, h3, h4, -⟩ :=
    notFound_dispatch (Option Unit) ⟨404, none, "Not Found"⟩ plain404 rfl rfl
  exact ⟨h1, h2, h3, h4⟩

end ClaimC7

section ClaimC8

/-- C8 counterexample: a 409-class conflict, whose exception text does
not contain the substring "422", does not fall back to fetching the
existing repository — it propagates. -/
theorem claimC8_false : ¬ claimC8Stated := by
  intro h
  have h1 := h "GitHub API 오류 (409): Repository already exists" (Except.ok 7)
    (Or.inl (by decide))
  have h2 : createGithubRepo
      (Except.error "GitHub API 오류 (409): Repository already exists")
      (Except.ok (7 : Nat)) =
      Except.error "GitHub API 오류 (409): Repository already exists" := by
    simp [createGithubRepo, show containsSub "GitHub API 오류 (409): Repository already exists" "422" = false from by decide]
  rw [h1] at h2
  simp at h2

/-- C8 (amended): when destination repository creation fails with an
error whose text contains the substring "422" (the 422
already-exists/validation class), the step falls back to fetching the
existing repository and continues; any other creation failure,
including a 409 conflict, propagates; a successful creation is passed
through. -/
theorem createRepo_conflict_fallback (e : String) (r : α) (fb : Except String α) :
    (containsSub e "422" = true → createGithubRepo (.error e) fb = fb) ∧
    (containsSub e "422" = false → createGithubRepo (.error e) fb = .error e) ∧
    createGithubRepo (.ok r) fb = .ok r := by
  refine ⟨fun h => ?_, fun h => ?_, rfl⟩ <;> simp [createGithubRepo, h]

/-- C8 witness: a creation failure mentioning 422 falls back to the
existing repository. -/
theorem createRepo_conflict_fallback_witness :
    createGithubRepo
      (Except.error "GitHub API 오류 (422): name already exists on this account")
      (Except.ok (7 : Nat)) = Except.ok 7 :=
  (createRepo_conflict_fallback
    "GitHub API 오류 (422): name already exists on this account" 7
    (Except.ok 7)).1 (by decide)

end ClaimC8

section ClaimC2

/-- C2 counterexample: with 5 of 5000 requests remaining but no known
reset time, the emitted high-severity warning does not name the reset
time, refuting the claim that the warning always names
remaining/limit/reset-time. -/
theorem claimC2_false : ¬ claimC2Stated := by
  intro h
  have h1 := h ⟨some 5000, some 5, none⟩ 5 5000 rfl rfl (by norm_num)
  have h2 : adaptiveDelay ⟨some 5000, some 5, none⟩ =
      ([.warnCritical 5 5000 false], 5) := by
    norm_num [adaptiveDelay, truthyInt]
  rw [h1] at h2
  simp at h2

/-- C2 (amended): after every successful governed request, if
remaining < 10 a high-severity warning naming remaining/limit — and the
reset time exactly when a nonzero reset timestamp is known — is emitted
and the sleep is 5s; if 10 ≤ remaining < 100 a warning is emitted and
the sleep is 2s; if 100 ≤ remaining < 500 the sleep is 1s and an info
message is emitted only when remaining is an exact multiple of 100; if
remaining ≥ 500 or the quota is unknown the sleep is 0.5s; in
particular remaining=999 with limit=1000 produces no log at all. -/
theorem adaptiveDelay_policy (info : RateLimitInfo) :
    (∀ r l : Int, info.remaining = some r → info.limit = some l →
      (r < 10 → adaptiveDelay info = ([.warnCritical r l (truthyInt info.reset)], 5)) ∧
      (10 ≤ r → r < 100 → adaptiveDelay info = ([.warnLow r l], 2)) ∧
      (100 ≤ r → r < 500 →
        adaptiveDelay info = ((if r % 100 == 0 then [.statusNote r l] else []), 1)) ∧
      (500 ≤ r → adaptiveDelay info = ([], 1/2))) ∧
    ((info.remaining = none ∨ info.limit = none) → adaptiveDelay info = ([], 1/2)) ∧
    (info.remaining = some 999 → info.limit = some 1000 →
      (adaptiveDelay info).1 = []) := by
  obtain ⟨lim, rem, res⟩ := info
  refine ⟨?_, ?_, ?_⟩
  · rintro r l hr hl
    dsimp only at hr hl
    subst hr
    subst hl
    refine ⟨fun h10 => ?_, fun hge hlt => ?_, fun hge hlt => ?_, fun hge => ?_⟩
    · show (if r < 10 then _ else _) = _
      rw [if_pos h10]
    · show (if r < 10 then _ else _) = _
      rw [if_neg (by omega), if_pos hlt]
    · show (if r < 10 then _ else _) = _
      rw [if_neg (by omega), if_neg (by omega), if_pos hlt]
    · show (if r < 10 then _ else _) = _
      rw [if_neg (by omega), if_neg (by omega), if_neg (by omega)]
  · rintro (hr | hl)
    · dsimp only at hr
      subst hr
      rfl
    · dsimp only at hl
      subst hl
      cases rem <;> rfl
  · intro hr hl
    dsimp only at hr hl
    subst hr
    subst hl
    rfl

/-- C2 witness: remaining=999 of limit=1000 logs nothing, and
remaining=5 of limit=5000 with a known reset time emits the critical
warning naming the reset time and sleeps 5s. -/
theorem adaptiveDelay_policy_witness :
    (adaptiveDelay ⟨some 1000, some 999, some 1700000000⟩).1 = [] ∧
    adaptiveDelay ⟨some 5000, some 5, some 1700000000⟩ =
      ([.warnCritical 5 5000 true], 5) := by
  refine ⟨(adaptiveDelay_policy _).2.2 rfl rfl, ?_⟩
  have h := ((adaptiveDelay_policy ⟨some 5000, some 5, some 1700000000⟩).1
    5 5000 rfl rfl).1 (by norm_num)
  simpa [truthyInt] using h

end ClaimC2

section ClaimC3

/-- The pagination loop, entered at page `p` with enough fuel, requests
exactly the consecutive pages up to and including the first short page
`k` (fewer than `perPage` items, the empty page included), and
accumulates their items in order. -/
theorem fetchPagesGo_spec (pages : Nat → List α) :
    ∀ (fuel p k : Nat), p ≤ k → k < p + fuel →
      (∀ i, p ≤ i → i < k → perPage ≤ (pages i).length) →
      (pages k).length < perPage →
      fetchPagesGo pages p fuel =
        (((List.range' p (k + 1 - p)).map pages).flatten, List.range' p (k + 1 - p))
  | 0, p, k, hpk, hfuel, _, _ => by omega
  | fuel + 1, p, k, hpk, hfuel, hbig, hlast => by
    rcases Nat.eq_or_lt_of_le hpk with heq | hlt
    · subst heq
      have h1 : p + 1 - p = 1 := by omega
      rw [h1, List.range'_one]
      by_cases he : (pages p).isEmpty
      · have hpe : pages p = [] := List.isEmpty_iff.1 he
        simp [fetchPagesGo, he, hpe]
      · simp [fetchPagesGo, he, hlast]
    · have hbig0 : perPage ≤ (pages p).length := hbig p le_rfl hlt
      have hne : (pages p).isEmpty = false := by
        rw [List.isEmpty_eq_false]
        intro hp0
        rw [hp0] at hbig0
        simp [perPage] at hbig0
      have hnl : ¬ (pages p).length < perPage := by omega
      have IH := fetchPagesGo_spec pages fuel (p + 1) k hlt (by omega)
        (fun i hi1 hi2 => hbig i (by omega) hi2) hlast
      have hr : k + 1 - p = (k - p) + 1 := by omega
      have hr2 : k + 1 - (p + 1) = k - p := by omega
      rw [hr2] at IH
      rw [hr, List.range'_succ]
      simp [fetchPagesGo, hne, hnl, IH]

/-- C3 (confirmed): for every paginated list fetch with page size 100,
the loop requests pages 1, 2, ... and terminates exactly at the first
page with strictly fewer than 100 items (an empty page included),
accumulating all items into one sequence that preserves server order
across pages; the accumulated length is the sum of the page lengths. -/
theorem pagination_loop (pages : Nat → List α) (k fuel : Nat)
    (hk : 1 ≤ k) (hfuel : k ≤ fuel)
    (hbig : ∀ i, 1 ≤ i → i < k → perPage ≤ (pages i).length)
    (hlast : (pages k).length < perPage) :
    makeRequestList pages fuel =
      (((List.range' 1 k).map pages).flatten, List.range' 1 k) ∧
    (makeRequestList pages fuel).2 = List.range' 1 k ∧
    (makeRequestList pages fuel).1.length =
      ((List.range' 1 k).map fun i => (pages i).length).sum := by
  have h := fetchPagesGo_spec pages fuel 1 k hk (by omega) hbig hlast
  have hk1 : k + 1 - 1 = k := by omega
  rw [hk1] at h
  refine ⟨h, ?_, ?_⟩
  · show (fetchPagesGo pages 1 fuel).2 = _
    rw [h]
  · show (fetchPagesGo pages 1 fuel).1.length = _
    rw [h]
    simp only [List.length_flatten, List.map_map]
    rfl

/-- C3 witness: a 3-page response sequence of 100, 100 and 37 items
yields exactly 237 items, and the pages requested are exactly 1, 2, 3 —
no 4th page request occurs. -/
theorem pagination_loop_witness :
    (makeRequestList threePages 5).2 = [1, 2, 3] ∧
    (makeRequestList threePages 5).1.length = 237 := by
  obtain ⟨h1, h2, h3⟩ := pagination_loop threePages 3 5 (by norm_num) (by norm_num)
    (fun i hi1 hi2 => by
      have hi3 : i ≠ 3 := by omega
      simp [threePages, hi3, perPage])
    (by simp [threePages, perPage])
  refine ⟨?_, ?_⟩
  · rw [h2]
    rfl
  · rw [h3]
    rfl

end ClaimC3

section ReconciliationLemmas

/-- Every branch record produced by the per-name loop carries the name
it was produced for. -/
theorem branchInfoFor_name (glD : String → Option GLBranch) (ghD : String → Option GHBranch)
    (cmp : String → String → Except String CompareResponse) (sd : Bool) (n : String) :
    (branchInfoFor glD ghD cmp sd n).1.name = n := by
  unfold branchInfoFor
  rcases glD n with _ | g <;> rcases ghD n with _ | b <;> dsimp only
  case _ =>
    by_cases hsha : (g.commitId == b.commitSha) = true
    · rw [if_pos hsha]
    · rw [if_neg hsha]
      by_cases hsd : sd = true
      · rw [if_pos hsd]
        cases hcmp : cmp b.commitSha g.commitId with
        | ok c =>
          dsimp only
          split <;> rfl
        | error e => rfl
      · rw [if_neg hsd]

/-- Every tag record produced by the per-name loop carries the name it
was produced for. -/
theorem tagInfoFor_name (glD : String → Option GLTag) (ghD : String → Option GHTag)
    (n : String) : (tagInfoFor glD ghD n).name = n := by
  unfold tagInfoFor
  rcases glD n with _ | g <;> rcases ghD n with _ | b <;> rfl

/-- The details list of `_compare_branches` is the per-name loop mapped
over the sorted union of names. -/
theorem compareBranches_details (gl : List GLBranch) (gh : List GHBranch)
    (cmp : String → String → Except String CompareResponse) (sd : Bool) :
    (compareBranches gl gh cmp sd).details =
      (sortedUnion (gl.map GLBranch.name) (gh.map GHBranch.name)).map
        fun n => (branchInfoFor (pyDict GLBranch.name gl) (pyDict GHBranch.name gh) cmp sd n).1 := by
  simp only [compareBranches, List.map_map]
  rfl

/-- The compare calls of `_compare_branches` are the per-name call lists
flattened in name order. -/
theorem compareBranches_calls (gl : List GLBranch) (gh : List GHBranch)
    (cmp : String → String → Except String CompareResponse) (sd : Bool) :
    (compareBranches gl gh cmp sd).compareCalls =
      ((sortedUnion (gl.map GLBranch.name) (gh.map GHBranch.name)).map
        fun n => (branchInfoFor (pyDict GLBranch.name gl) (pyDict GHBranch.name gh) cmp sd n).2).flatten := by
  simp only [compareBranches, List.map_map]
  rfl

/-- The names of the branch details list are exactly the sorted union. -/
theorem compareBranches_names (gl : List GLBranch) (gh : List GHBranch)
    (cmp : String → String → Except String CompareResponse) (sd : Bool) :
    (compareBranches gl gh cmp sd).details.map BranchInfo.name =
      sortedUnion (gl.map GLBranch.name) (gh.map GHBranch.name) := by
  rw [compareBranches_details, List.map_map]
  have h : ∀ n ∈ sortedUnion (gl.map GLBranch.name) (gh.map GHBranch.name),
      (BranchInfo.name ∘ fun m =>
        (branchInfoFor (pyDict GLBranch.name gl) (pyDict GHBranch.name gh) cmp sd m).1) n = id n :=
    fun n _ => branchInfoFor_name _ _ _ _ n
  rw [List.map_congr_left h, List.map_id]

/-- Looking a union name up in the branch details finds the per-name
record. -/
theorem infoOf_compareBranches (gl : List GLBranch) (gh : List GHBranch)
    (cmp : String → String → Except String CompareResponse) (sd : Bool) {n : String}
    (hmem : n ∈ gl.map GLBranch.name ∨ n ∈ gh.map GHBranch.name) :
    infoOf (compareBranches gl gh cmp sd).details n =
      some (branchInfoFor (pyDict GLBranch.name gl) (pyDict GHBranch.name gh) cmp sd n).1 := by
  unfold infoOf
  rw [compareBranches_details]
  exact find?_map_of_name _ BranchInfo.name (branchInfoFor_name _ _ cmp sd) _ n
    (mem_sortedUnion.2 hmem)

/-- With unique names on each side, `_compare_branches` is insensitive
to the order in which either API returned the branches. -/
theorem compareBranches_congr {gl gl' : List GLBranch} {gh gh' : List GHBranch}
    (cmp : String → String → Except String CompareResponse) (sd : Bool)
    (hp1 : gl.Perm gl') (hp2 : gh.Perm gh')
    (hnd1 : (gl.map GLBranch.name).Nodup) (hnd2 : (gh.map GHBranch.name).Nodup) :
    compareBranches gl' gh' cmp sd = compareBranches gl gh cmp sd := by
  have hD1 := pyDict_perm GLBranch.name hnd1 hp1
  have hD2 := pyDict_perm GHBranch.name hnd2 hp2
  have hnames : sortedUnion (gl'.map GLBranch.name) (gh'.map GHBranch.name) =
      sortedUnion (gl.map GLBranch.name) (gh.map GHBranch.name) :=
    (sortedUnion_congr (hp1.map GLBranch.name) (hp2.map GHBranch.name)).symm
  unfold compareBranches
  rw [hnames, ← hD1, ← hD2, ← hp1.length_eq, ← hp2.length_eq]

/-- The details list of `_compare_tags` is the per-name loop mapped over
the sorted union of names. -/
theorem compareTags_details (gl : List GLTag) (gh : List GHTag) :
    (compareTags gl gh).details =
      (sortedUnion (gl.map GLTag.name) (gh.map GHTag.name)).map
        (tagInfoFor (pyDict GLTag.name gl) (pyDict GHTag.name gh)) := rfl

/-- The names of the tag details list are exactly the sorted union. -/
theorem compareTags_names (gl : List GLTag) (gh : List GHTag) :
    (compareTags gl gh).details.map TagInfo.name =
      sortedUnion (gl.map GLTag.name) (gh.map GHTag.name) := by
  rw [compareTags_details, List.map_map]
  have h : ∀ n ∈ sortedUnion (gl.map GLTag.name) (gh.map GHTag.name),
      (TagInfo.name ∘ tagInfoFor (pyDict GLTag.name gl) (pyDict GHTag.name gh)) n = id n :=
    fun n _ => tagInfoFor_name _ _ n
  rw [List.map_congr_left h, List.map_id]

/-- With unique names on each side, `_compare_tags` is insensitive to
the order in which either API returned the tags. -/
theorem compareTags_congr {gl gl' : List GLTag} {gh gh' : List GHTag}
    (hp1 : gl.Perm gl') (hp2 : gh.Perm gh')
    (hnd1 : (gl.map GLTag.name).Nodup) (hnd2 : (gh.map GHTag.name).Nodup) :
    compareTags gl' gh' = compareTags gl gh := by
  have hD1 := pyDict_perm GLTag.name hnd1 hp1
  have hD2 := pyDict_perm GHTag.name hnd2 hp2
  have hnames : sortedUnion (gl'.map GLTag.name) (gh'.map GHTag.name) =
      sortedUnion (gl.map GLTag.name) (gh.map GHTag.name) :=
    (sortedUnion_congr (hp1.map GLTag.name) (hp2.map GHTag.name)).symm
  unfold compareTags
  rw [hnames, ← hD1, ← hD2, ← hp1.length_eq, ← hp2.length_eq]

end ReconciliationLemmas

section ClaimC4

/-- C4 (confirmed): for every ref name in the union of the two branch
snapshots, reconciliation classifies it as synced when present in both
with equal commit ids, diverged ("⚠ Different") when present in both
with differing commit ids, missing-in-destination when present only in
the source, and extra-in-destination when present only in the
destination; with unique names per snapshot the classification is
independent of map iteration/insertion order. -/
theorem branch_classification (gl gl' : List GLBranch) (gh gh' : List GHBranch)
    (cmp : String → String → Except String CompareResponse) (sd : Bool)
    (hnd1 : (gl.map GLBranch.name).Nodup) (hnd2 : (gh.map GHBranch.name).Nodup)
    (hp1 : gl.Perm gl') (hp2 : gh.Perm gh') :
    (∀ g ∈ gl, ∀ b ∈ gh, g.name = b.name →
      statusOf (compareBranches gl gh cmp sd).details g.name =
        some (if g.commitId = b.commitSha then .synced else .different)) ∧
    (∀ g ∈ gl, g.name ∉ gh.map GHBranch.name →
      statusOf (compareBranches gl gh cmp sd).details g.name = some .missingInGitHub) ∧
    (∀ b ∈ gh, b.name ∉ gl.map GLBranch.name →
      statusOf (compareBranches gl gh cmp sd).details b.name = some .extraInGitHub) ∧
    (∀ n, statusOf (compareBranches gl' gh' cmp sd).details n =
      statusOf (compareBranches gl gh cmp sd).details n) := by
  refine ⟨?_, ?_, ?_, fun n => by
    rw [compareBranches_congr cmp sd hp1 hp2 hnd1 hnd2]⟩
  · intro g hg b hb hname
    have hgD : pyDict GLBranch.name gl g.name = some g :=
      (pyDict_eq_some_iff _ _ hnd1 _ _).2 ⟨hg, rfl⟩
    have hbD : pyDict GHBranch.name gh g.name = some b :=
      (pyDict_eq_some_iff _ _ hnd2 _ _).2 ⟨hb, hname.symm⟩
    have hmem : g.name ∈ gl.map GLBranch.name := List.mem_map.2 ⟨g, hg, rfl⟩
    unfold statusOf
    rw [infoOf_compareBranches gl gh cmp sd (Or.inl hmem)]
    unfold branchInfoFor
    rw [hgD, hbD]
    dsimp only
    by_cases hsha : g.commitId = b.commitSha
    · rw [if_pos (by simp [hsha]), if_pos hsha]
      rfl
    · rw [if_neg (by simp [hsha]), if_neg hsha]
      by_cases hsd : sd = true
      · rw [if_pos hsd]
        cases hcmp : cmp b.commitSha g.commitId with
        | ok c =>
          dsimp only
          split <;> rfl
        | error e => rfl
      · rw [if_neg hsd]
        rfl
  · intro g hg hnotin
    have hgD : pyDict GLBranch.name gl g.name = some g :=
      (pyDict_eq_some_iff _ _ hnd1 _ _).2 ⟨hg, rfl⟩
    have hbD : pyDict GHBranch.name gh g.name = none :=
      (pyDict_eq_none_iff _ _ _).2 hnotin
    have hmem : g.name ∈ gl.map GLBranch.name := List.mem_map.2 ⟨g, hg, rfl⟩
    unfold statusOf
    rw [infoOf_compareBranches gl gh cmp sd (Or.inl hmem)]
    unfold branchInfoFor
    rw [hgD, hbD]
    rfl
  · intro b hb hnotin
    have hbD : pyDict GHBranch.name gh b.name = some b :=
      (pyDict_eq_some_iff _ _ hnd2 _ _).2 ⟨hb, rfl⟩
    have hgD : pyDict GLBranch.name gl b.name = none :=
      (pyDict_eq_none_iff _ _ _).2 hnotin
    have hmem : b.name ∈ gh.map GHBranch.name := List.mem_map.2 ⟨b, hb, rfl⟩
    unfold statusOf
    rw [infoOf_compareBranches gl gh cmp sd (Or.inr hmem)]
    unfold branchInfoFor
    rw [hgD, hbD]
    rfl

/-- C4 witness: on the scenario snapshots, "main" is synced, "dev" is
missing in the destination, and the classification is unchanged when
the source list arrives in the opposite order. -/
theorem branch_classification_witness :
    statusOf (compareBranches [⟨"main", "abc12345"⟩, ⟨"dev", "def67890"⟩]
      [⟨"main", "abc12345"⟩] noCompare true).details "main" = some .synced ∧
    statusOf (compareBranches [⟨"main", "abc12345"⟩, ⟨"dev", "def67890"⟩]
      [⟨"main", "abc12345"⟩] noCompare true).details "dev" = some .missingInGitHub ∧
    statusOf (compareBranches [⟨"dev", "def67890"⟩, ⟨"main", "abc12345"⟩]
      [⟨"main", "abc12345"⟩] noCompare true).details "main" = some .synced := by
  obtain ⟨hc1, hc2, hc3, hc4⟩ := branch_classification
    [⟨"main", "abc12345"⟩, ⟨"dev", "def67890"⟩] [⟨"dev", "def67890"⟩, ⟨"main", "abc12345"⟩]
    [⟨"main", "abc12345"⟩] [⟨"main", "abc12345"⟩] noCompare true
    (by decide) (by decide) (by decide) (List.Perm.refl _)
  have hmain : statusOf (compareBranches [⟨"main", "abc12345"⟩, ⟨"dev", "def67890"⟩]
      [⟨"main", "abc12345"⟩] noCompare true).details "main" = some .synced := by
    have h := hc1 ⟨"main", "abc12345"⟩ (by decide) ⟨"main", "abc12345"⟩ (by decide) rfl
    simpa using h
  refine ⟨hmain, ?_, (hc4 "main").trans hmain⟩
  exact hc2 ⟨"dev", "def67890"⟩ (by decide) (by decide)

end ClaimC4

section ClaimC5

/-- C5 (confirmed): for every pair of snapshots, the reconciliation
output is sorted strictly lexicographically by ref name, its name set
is exactly the union of the two input name sets with no duplicates, and
with unique names per snapshot the whole output is identical no matter
the order in which either API returned the refs — for branches and for
tags alike. -/
theorem reconcile_sorted_union (gl gl' : List GLBranch) (gh gh' : List GHBranch)
    (glt glt' : List GLTag) (ght ght' : List GHTag)
    (cmp : String → String → Except String CompareResponse) (sd : Bool)
    (hnd1 : (gl.map GLBranch.name).Nodup) (hnd2 : (gh.map GHBranch.name).Nodup)
    (hnd3 : (glt.map GLTag.name).Nodup) (hnd4 : (ght.map GHTag.name).Nodup)
    (hp1 : gl.Perm gl') (hp2 : gh.Perm gh') (hp3 : glt.Perm glt') (hp4 : ght.Perm ght') :
    ((compareBranches gl gh cmp sd).details.map BranchInfo.name).Sorted (· < ·) ∧
    ((compareBranches gl gh cmp sd).details.map BranchInfo.name).Nodup ∧
    (∀ n, n ∈ (compareBranches gl gh cmp sd).details.map BranchInfo.name ↔
      (n ∈ gl.map GLBranch.name ∨ n ∈ gh.map GHBranch.name)) ∧
    compareBranches gl' gh' cmp sd = compareBranches gl gh cmp sd ∧
    ((compareTags glt ght).details.map TagInfo.name).Sorted (· < ·) ∧
    ((compareTags glt ght).details.map TagInfo.name).Nodup ∧
    (∀ n, n ∈ (compareTags glt ght).details.map TagInfo.name ↔
      (n ∈ glt.map GLTag.name ∨ n ∈ ght.map GHTag.name)) ∧
    compareTags glt' ght' = compareTags glt ght := by
  refine ⟨?_, ?_, ?_, compareBranches_congr cmp sd hp1 hp2 hnd1 hnd2, ?_, ?_, ?_,
    compareTags_congr hp3 hp4 hnd3 hnd4⟩
  · rw [compareBranches_names]
    exact sortedUnion_sorted_lt _ _
  · rw [compareBranches_names]
    exact sortedUnion_nodup _ _
  · intro n
    rw [compareBranches_names]
    exact mem_sortedUnion
  · rw [compareTags_names]
    exact sortedUnion_sorted_lt _ _
  · rw [compareTags_names]
    exact sortedUnion_nodup _ _
  · intro n
    rw [compareTags_names]
    exact mem_sortedUnion

/-- C5 witness: concrete branch and tag snapshots produce identical
reconciliation output when either source list is permuted. -/
theorem reconcile_sorted_union_witness :
    compareBranches [⟨"dev", "def67890"⟩, ⟨"main", "abc12345"⟩]
      [⟨"main", "abc12345"⟩] noCompare true =
    compareBranches [⟨"main", "abc12345"⟩, ⟨"dev", "def67890"⟩]
      [⟨"main", "abc12345"⟩] noCompare true ∧
    compareTags [⟨"v2", none, some "t"⟩, ⟨"v1", some ⟨"abc"⟩, none⟩] [⟨"v1", "abc"⟩] =
    compareTags [⟨"v1", some ⟨"abc"⟩, none⟩, ⟨"v2", none, some "t"⟩] [⟨"v1", "abc"⟩] := by
  obtain ⟨-, -, -, h4, -, -, -, h8⟩ := reconcile_sorted_union
    [⟨"main", "abc12345"⟩, ⟨"dev", "def67890"⟩] [⟨"dev", "def67890"⟩, ⟨"main", "abc12345"⟩]
    [⟨"main", "abc12345"⟩] [⟨"main", "abc12345"⟩]
    [⟨"v1", some ⟨"abc"⟩, none⟩, ⟨"v2", none, some "t"⟩]
    [⟨"v2", none, some "t"⟩, ⟨"v1", some ⟨"abc"⟩, none⟩]
    [⟨"v1", "abc"⟩] [⟨"v1", "abc"⟩] noCompare true
    (by decide) (by decide) (by decide) (by decide)
    (by decide) (List.Perm.refl _) (by decide) (List.Perm.refl _)
  exact ⟨h4, h8⟩

end ClaimC5

section ClaimC9

/-- C9 counterexample: a source tag with neither a nested commit object
nor a target field resolves to the empty string, not to the sentinel
string "unknown". -/
theorem claimC9_false : ¬ claimC9Stated := by
  intro h
  have h1 := h ⟨"v1.0", none, none⟩ rfl rfl
  exact absurd h1 (by decide)

/-- C9 (amended): source-side tag commit id extraction handles both
legacy payload shapes — a nested commit object and a flat target field —
and when the commit id is missing it resolves to the empty string,
which the comparison renders as the "-" placeholder instead of
failing. -/
theorem tagSha_shapes (t : GLTag) :
    (∀ c, t.commit = some c → glTagSha t = c.id) ∧
    (∀ s, t.commit = none → t.target = some s → glTagSha t = s) ∧
    (t.commit = none → t.target = none → glTagSha t = "") ∧
    ((compareTags [t] []).details =
      [⟨t.name, .missingInGitHub, renderSha (glTagSha t), "-"⟩]) ∧
    (glTagSha t = "" → renderSha (glTagSha t) = "-") := by
  refine ⟨?_, ?_, ?_, ?_, ?_⟩
  · intro c hc
    unfold glTagSha
    rw [hc]
  · intro s hc hs
    unfold glTagSha
    rw [hc, hs]
    rfl
  · intro hc hs
    unfold glTagSha
    rw [hc, hs]
    rfl
  · have hgD : pyDict GLTag.name [t] t.name = some t := by
      unfold pyDict
      simp
    have h1 : sortedUnion ([t].map GLTag.name) (([] : List GHTag).map GHTag.name) = [t.name] := by
      unfold sortedUnion
      simp [List.insertionSort, List.orderedInsert]
    rw [compareTags_details, h1]
    simp only [List.map_cons, List.map_nil]
    unfold tagInfoFor
    rw [hgD]
    rfl
  · intro h
    rw [h]
    rfl

/-- C9 witness: a tag with no commit and no target yields the empty
commit id and is rendered with the "-" placeholder. -/
theorem tagSha_shapes_witness :
    glTagSha ⟨"v2.0", none, none⟩ = "" ∧
    (compareTags [⟨"v2.0", none, none⟩] []).details =
      [⟨"v2.0", .missingInGitHub, "-", "-"⟩] := by
  obtain ⟨-, -, h3, h4, -⟩ := tagSha_shapes ⟨"v2.0", none, none⟩
  have hsha := h3 rfl rfl
  refine ⟨hsha, ?_⟩
  rw [h4, hsha]
  rfl

end ClaimC9

section ClaimC10

/-- C10 (confirmed): for every diverged branch with detail requested, a
compare call is made with base the destination (GitHub) commit and head
the source (GitLab) commit, but the behind_details annotation is
attached only when the returned behind_by is strictly positive: when
the compare succeeds with behind_by = 0 the record keeps
behindDetails = none even though detail was requested and the call
succeeded, and when behind_by > 0 it carries the counts and the first
ten summarized commits. -/
theorem behind_details_policy (gl : List GLBranch) (gh : List GHBranch)
    (cmp : String → String → Except String CompareResponse)
    (g : GLBranch) (b : GHBranch)
    (hnd1 : (gl.map GLBranch.name).Nodup) (hnd2 : (gh.map GHBranch.name).Nodup)
    (hg : g ∈ gl) (hb : b ∈ gh) (hname : g.name = b.name)
    (hdiff : g.commitId ≠ b.commitSha) :
    ((b.commitSha, g.commitId) ∈ (compareBranches gl gh cmp true).compareCalls) ∧
    (∀ c, cmp b.commitSha g.commitId = .ok c →
      (c.behindBy.getD 0 = 0 →
        infoOf (compareBranches gl gh cmp true).details g.name =
          some ⟨g.name, .different, g.commitId.take 8, b.commitSha.take 8, none⟩) ∧
      (0 < c.behindBy.getD 0 →
        infoOf (compareBranches gl gh cmp true).details g.name =
          some ⟨g.name, .different, g.commitId.take 8, b.commitSha.take 8,
            some (.found (c.behindBy.getD 0) (c.aheadBy.getD 0)
              ((c.commits.take 10).map summarizeCommit))⟩)) := by
  have hgD : pyDict GLBranch.name gl g.name = some g :=
    (pyDict_eq_some_iff _ _ hnd1 _ _).2 ⟨hg, rfl⟩
  have hbD : pyDict GHBranch.name gh g.name = some b :=
    (pyDict_eq_some_iff _ _ hnd2 _ _).2 ⟨hb, hname.symm⟩
  have hmem : g.name ∈ gl.map GLBranch.name := List.mem_map.2 ⟨g, hg, rfl⟩
  have hbe : ¬ ((g.commitId == b.commitSha) = true) := by simp [hdiff]
  constructor
  · rw [compareBranches_calls]
    refine List.mem_flatten.2 ⟨(branchInfoFor (pyDict GLBranch.name gl)
      (pyDict GHBranch.name gh) cmp true g.name).2,
      List.mem_map.2 ⟨g.name, mem_sortedUnion.2 (Or.inl hmem), rfl⟩, ?_⟩
    unfold branchInfoFor
    rw [hgD, hbD]
    dsimp only
    rw [if_neg hbe, if_pos rfl]
    cases hcmp : cmp b.commitSha g.commitId with
    | ok c =>
      dsimp only
      split <;> simp
    | error e => simp
  · intro c hcmp
    constructor
    · intro hz
      rw [infoOf_compareBranches gl gh cmp true (Or.inl hmem)]
      unfold branchInfoFor
      rw [hgD, hbD]
      dsimp only
      rw [if_neg hbe, if_pos rfl, hcmp]
      dsimp only
      rw [if_neg (by omega)]
    · intro hp
      rw [infoOf_compareBranches gl gh cmp true (Or.inl hmem)]
      unfold branchInfoFor
      rw [hgD, hbD]
      dsimp only
      rw [if_neg hbe, if_pos rfl, hcmp]
      dsimp only
      rw [if_pos hp]

/-- C10 witness: a diverged branch whose compare reports behind_by = 0
keeps behindDetails = none even though the compare call (base =
destination commit, head = source commit) was made and succeeded. -/
theorem behind_details_policy_witness :
    (("bbbb2222", "aaaa1111") ∈
      (compareBranches [⟨"main", "aaaa1111"⟩] [⟨"main", "bbbb2222"⟩]
        cmpZeroBehind true).compareCalls) ∧
    infoOf (compareBranches [⟨"main", "aaaa1111"⟩] [⟨"main", "bbbb2222"⟩]
        cmpZeroBehind true).details "main" =
      some ⟨"main", .different, "aaaa1111", "bbbb2222", none⟩ := by
  obtain ⟨h1, h2⟩ := behind_details_policy [⟨"main", "aaaa1111"⟩] [⟨"main", "bbbb2222"⟩]
    cmpZeroBehind ⟨"main", "aaaa1111"⟩ ⟨"main", "bbbb2222"⟩
    (by decide) (by decide) (by decide) (by decide) rfl (by decide)
  refine ⟨h1, ?_⟩
  have h3 := (h2 ⟨some 0, some 2, []⟩ rfl).1 rfl
  exact h3

end ClaimC10

section ClaimC6

/-- C6 (confirmed): the aggregate flag is_fully_synced is true exactly
when the counts of diverged, missing and extra refs are all zero across
both branches and tags; and the synced count alone never determines it
(two detail lists with the same synced count can differ on the flag). -/
theorem summary_fully_synced (bs : List BranchInfo) (ts : List TagInfo) :
    ((generateSummary bs ts).isFullySynced = true ↔
      (bs.countP (fun i => i.status == SyncStatus.different) = 0 ∧
       bs.countP (fun i => i.status == SyncStatus.missingInGitHub) = 0 ∧
       bs.countP (fun i => i.status == SyncStatus.extraInGitHub) = 0 ∧
       ts.countP (fun i => i.status == SyncStatus.different) = 0 ∧
       ts.countP (fun i => i.status == SyncStatus.missingInGitHub) = 0 ∧
       ts.countP (fun i => i.status == SyncStatus.extraInGitHub) = 0)) ∧
    (∃ bs1 bs2 : List BranchInfo,
      (generateSummary bs1 []).syncedBranches = (generateSummary bs2 []).syncedBranches ∧
      (generateSummary bs1 []).isFullySynced = true ∧
      (generateSummary bs2 []).isFullySynced = false) := by
  constructor
  · have hwd : ∀ st : SyncStatus,
        containsSub (statusText st) "⚠" = (st == SyncStatus.different) := by
      intro st
      cases st <;> decide
    have hwm : ∀ st : SyncStatus,
        containsSub (statusText st) "Missing" = (st == SyncStatus.missingInGitHub) := by
      intro st
      cases st <;> decide
    have hwe : ∀ st : SyncStatus,
        containsSub (statusText st) "Extra" = (st == SyncStatus.extraInGitHub) := by
      intro st
      cases st <;> decide
    have e1 : bs.countP (fun i => containsSub (statusText i.status) "⚠") =
        bs.countP (fun i => i.status == SyncStatus.different) :=
      List.countP_congr fun i _ => by rw [hwd i.status]
    have e2 : bs.countP (fun i => containsSub (statusText i.status) "Missing") =
        bs.countP (fun i => i.status == SyncStatus.missingInGitHub) :=
      List.countP_congr fun i _ => by rw [hwm i.status]
    have e3 : bs.countP (fun i => containsSub (statusText i.status) "Extra") =
        bs.countP (fun i => i.status == SyncStatus.extraInGitHub) :=
      List.countP_congr fun i _ => by rw [hwe i.status]
    have e4 : ts.countP (fun i => containsSub (statusText i.status) "⚠") =
        ts.countP (fun i => i.status == SyncStatus.different) :=
      List.countP_congr fun i _ => by rw [hwd i.status]
    have e5 : ts.countP (fun i => containsSub (statusText i.status) "Missing") =
        ts.countP (fun i => i.status == SyncStatus.missingInGitHub) :=
      List.countP_congr fun i _ => by rw [hwm i.status]
    have e6 : ts.countP (fun i => containsSub (statusText i.status) "Extra") =
        ts.countP (fun i => i.status == SyncStatus.extraInGitHub) :=
      List.countP_congr fun i _ => by rw [hwe i.status]
    simp only [generateSummary]
    rw [e1, e2, e3, e4, e5, e6]
    simp [Bool.and_eq_true, Nat.beq_eq_true_eq, and_assoc]
  · refine ⟨[⟨"m", .synced, "a", "a", none⟩],
      [⟨"m", .synced, "a", "a", none⟩, ⟨"d", .different, "a", "b", none⟩], ?_, ?_, ?_⟩ <;> decide

end ClaimC6

end Migration
